import Mathlib

/-!
# QuickQanava / GTpo: `gtpo::GenEdge` and `qan::BottomRightResizer`

Shallow embedding of `GTpo/src/gtpoGenEdge.h` and `src/qanBottomRightResizer.cpp`,
followed by the properties established about them.

Conventions of the embedding:

* a raw pointer (`Graph*`, `QQuickItem*`, `QPointer<...>`) is an `Option Nat`: `none` is
  `nullptr`, `some a` is the address `a`;
* a `std::weak_ptr` is an `Option Nat`: `none` is the empty weak pointer, `some a` refers to
  the control block `a`.  Whether the referred object is still alive, and which graph owns it,
  is a property of the heap and not of the reference;
* output on `std::cerr` and calls into graph behaviours are recorded in explicit logs.
-/

namespace gtpo

/-! ## Data model of `GenEdge` -/

/-- In the source: `GenEdge::WeakNode`, a `std::weak_ptr` on a node. -/
abbrev WeakNode := Option Nat

/-- In the source: `GenEdge::WeakEdge`, a `std::weak_ptr` on an edge. -/
abbrev WeakEdge := Option Nat

/-- Modelled from the spec: `Config::EdgeContainer< WeakEdge >` is declared by the graph
configuration of `gtpoUtils.h`, which is not part of the sources at hand; the spec describes
the in-hyperedges of an edge as a set. -/
abbrev WeakEdges := Finset WeakEdge

/-- Modelled from the spec: `Config::NodeContainer< WeakNode >` is declared by the graph
configuration of `gtpoUtils.h`, which is not part of the sources at hand; the spec describes
the in-hyper-nodes of an edge as a set. -/
abbrev WeakNodes := Finset WeakNode

/-- Data members of `GenEdge`, with their in-class initialisers as the documentation of
each field. -/
structure GenEdge where
  /-- In the source: `Graph* _graph{ nullptr }`. -/
  _graph : Option Nat
  /-- In the source: `bool _serializable = true`. -/
  _serializable : Bool
  /-- In the source: `WeakNode _src`. -/
  _src : WeakNode
  /-- In the source: `WeakNode _dst`. -/
  _dst : WeakNode
  /-- In the source: `WeakEdge _hDst`. -/
  _hDst : WeakEdge
  /-- In the source: `WeakEdges _inHEdges`. -/
  _inHEdges : WeakEdges
  /-- In the source: `WeakNodes _inHNodes`. -/
  _inHNodes : WeakNodes
deriving DecidableEq

/-- Modelled from the spec: the behaviour interface of `gtpoBehaviour.h` is not part of the
sources at hand; the spec lists one notification per structural event. -/
inductive BehaviourEvent where
  | nodeInserted (node : Nat)
  | nodeRemoved (node : Nat)
  | edgeInserted (edge : Nat)
  | edgeRemoved (edge : Nat)
  | groupInserted (group : Nat)
  | groupRemoved (group : Nat)
deriving DecidableEq

/-- Modelled from the spec: the error taxonomy of the topology engine. -/
inductive GTpoError where
  | NotFoundError
  | InvalidEndpointError
  | AlreadyMemberError
  | OwnershipViolationError
deriving DecidableEq

/-- State a member function of `GenEdge` runs in: the edge object itself (`*this`), the lines
written so far on `std::cerr`, and the behaviour notifications dispatched so far. -/
structure Process where
  self : GenEdge
  cerr : List String
  notified : List BehaviourEvent
deriving DecidableEq

/-! ## Construction and destruction -/

/-- In the source: `GenEdge() noexcept : Config::EdgeBase{} {}`: every member takes its in-class
initialiser, the weak pointers and containers are empty. -/
def GenEdge.default : GenEdge :=
  { _graph := none, _serializable := true, _src := none, _dst := none, _hDst := none,
    _inHEdges := ∅, _inHNodes := ∅ }

/-- In the source: `explicit GenEdge( WeakNode& src, WeakNode& dst )`: `_src{ src }, _dst{ dst }`. -/
def GenEdge.fromNodes (src dst : WeakNode) : GenEdge :=
  { _graph := none, _serializable := true, _src := src, _dst := dst, _hDst := none,
    _inHEdges := ∅, _inHNodes := ∅ }

/-- In the source: `explicit GenEdge( WeakNode& src, WeakEdge& hDst )`: `_src{ src }, _hDst{ hDst }`. -/
def GenEdge.fromHyper (src : WeakNode) (hDst : WeakEdge) : GenEdge :=
  { _graph := none, _serializable := true, _src := src, _dst := none, _hDst := hDst,
    _inHEdges := ∅, _inHNodes := ∅ }

/-- The three constructors of `GenEdge` with their arguments. -/
inductive Ctor where
  | default
  | fromNodes (src dst : WeakNode)
  | fromHyper (src : WeakNode) (hDst : WeakEdge)
deriving DecidableEq

/-- Object built by a constructor call. -/
def construct : Ctor → GenEdge
  | .default => GenEdge.default
  | .fromNodes src dst => GenEdge.fromNodes src dst
  | .fromHyper src hDst => GenEdge.fromHyper src hDst

/-- Text written by the destructor of an edge that is still attached to a graph. -/
def deletedBeforeRemovedWarning : String :=
  "gtpo::GenEdge<>::~GenEdge(): Warning: an edge has been deleted before beeing " ++
    "removed from the graph."

/-- In the source: `~GenEdge()`: warn on `std::cerr` when `_graph != nullptr`, then `_graph = nullptr`. -/
def destructor (p : Process) : Process :=
  let p1 : Process :=
    if p.self._graph ≠ none then { p with cerr := p.cerr ++ [deletedBeforeRemovedWarning] }
    else p
  { p1 with self := { p1.self with _graph := none } }

/-- In the source: `getGraph()`. -/
def getGraph (p : Process) : Option Nat := p.self._graph

/-- In the source: `setGraph( Graph* graph )`: `_graph = graph`. -/
def setGraph (p : Process) (graph : Option Nat) : Process :=
  { p with self := { p.self with _graph := graph } }

/-! ## Meta properties -/

/-- In the source: `getSerializable()`. -/
def getSerializable (p : Process) : Bool := p.self._serializable

/-- In the source: `isSerializable()`: shortcut to `getSerializable()`. -/
def isSerializable (p : Process) : Bool := getSerializable p

/-- In the source: `setSerializable( bool serializable )`: `_serializable = serializable`. -/
def setSerializable (p : Process) (serializable : Bool) : Process :=
  { p with self := { p.self with _serializable := serializable } }

/-! ## Source / destination management -/

/-- In the source: `setSrc( WeakNode src ) noexcept`: `_src = src`. -/
def setSrc (p : Process) (src : WeakNode) : Process :=
  { p with self := { p.self with _src := src } }

/-- In the source: `setDst( WeakNode dst ) noexcept`: `_dst = dst`. -/
def setDst (p : Process) (dst : WeakNode) : Process :=
  { p with self := { p.self with _dst := dst } }

/-- In the source: `getSrc()`. -/
def getSrc (p : Process) : WeakNode := p.self._src

/-- In the source: `getDst()`. -/
def getDst (p : Process) : WeakNode := p.self._dst

/-! ## Restricted hyper edge management -/

/-- In the source: `setHDst( WeakEdge hDst ) noexcept`: `_hDst = hDst`. -/
def setHDst (p : Process) (hDst : WeakEdge) : Process :=
  { p with self := { p.self with _hDst := hDst } }

/-- In the source: `getHDst()`. -/
def getHDst (p : Process) : WeakEdge := p.self._hDst

/-- In the source: `getInHEdges()`. -/
def getInHEdges (p : Process) : WeakEdges := p.self._inHEdges

/-- In the source: `getInHNodes()`. -/
def getInHNodes (p : Process) : WeakNodes := p.self._inHNodes

/-- Modelled from the spec: the resolution of a hyperedge reference to "`edge`'s source node",
which the bodies of `addInHEdge` and `removeInHEdge`, absent from the sources at hand, read
through the reference.  `heap` gives the edge object at each address; an empty reference has
no source node. -/
def srcOf (heap : Nat → GenEdge) : WeakEdge → WeakNode
  | some a => (heap a)._src
  | none => none

/-- Modelled from the spec: `addInHEdge` is declared in `gtpoGenEdge.h` but defined in a file
that is not part of the sources at hand.  The spec: "registers `edge` as targeting this edge
as a restricted hyperedge destination; also inserts `edge`'s source node into this edge's
in-hyper-node set." -/
def addInHEdge (heap : Nat → GenEdge) (p : Process) (inHEdge : WeakEdge) : Process :=
  { p with self := { p.self with
      _inHEdges := insert inHEdge p.self._inHEdges
      _inHNodes := insert (srcOf heap inHEdge) p.self._inHNodes } }

/-- Modelled from the spec: `removeInHEdge` is declared in `gtpoGenEdge.h` but defined in a
file that is not part of the sources at hand.  The spec: "inverse, fails with `NotFoundError`
if `edge` was not registered"; the in-hyper-nodes are "the derived set of in-hyper-nodes
(source nodes of those in-hyperedges)", and after `removeInHEdge` "both are reverted".  So
the edge is unregistered and the in-hyper-node set is again the set of the source nodes of
the in-hyperedges that are still registered. -/
def removeInHEdge (heap : Nat → GenEdge) (p : Process) (inHEdge : WeakEdge) :
    Except GTpoError Process :=
  if inHEdge ∈ p.self._inHEdges then
    .ok { p with self := { p.self with
            _inHEdges := p.self._inHEdges.erase inHEdge
            _inHNodes := (p.self._inHEdges.erase inHEdge).image (srcOf heap) } }
  else
    .error GTpoError.NotFoundError

/-- One call of a mutating member function of `GenEdge` defined in `gtpoGenEdge.h`. -/
inductive Op where
  | setGraph (graph : Option Nat)
  | setSerializable (serializable : Bool)
  | setSrc (src : WeakNode)
  | setDst (dst : WeakNode)
  | setHDst (hDst : WeakEdge)
deriving DecidableEq

/-- Effect of one call. -/
def Op.apply (p : Process) : Op → Process
  | .setGraph graph => gtpo.setGraph p graph
  | .setSerializable serializable => gtpo.setSerializable p serializable
  | .setSrc src => gtpo.setSrc p src
  | .setDst dst => gtpo.setDst p dst
  | .setHDst hDst => gtpo.setHDst p hDst

/-- Effect of a sequence of calls, first call first. -/
def applyOps (p : Process) (ops : List Op) : Process :=
  ops.foldl Op.apply p

/-- The call only touches the endpoints: `setSrc`, `setDst` or `setHDst`. -/
def Op.isEndpointSetter : Op → Bool
  | .setSrc _ => true
  | .setDst _ => true
  | .setHDst _ => true
  | _ => false

/-- The call keeps the destination kind of an edge whose destination is a node when
`hyper = false`, an edge when `hyper = true`: it is `setSrc`, or `setDst` with an argument
that is non-empty exactly for a node destination, or `setHDst` with an argument that is
non-empty exactly for an edge destination. -/
def Op.keepsKind (hyper : Bool) : Op → Bool
  | .setSrc _ => true
  | .setDst dst => dst.isSome == !hyper
  | .setHDst hDst => hDst.isSome == hyper
  | _ => false

/-- One call of a mutating member function of `GenEdge`, the two hyperedge registration
functions included. -/
inductive HyperOp where
  | op (o : Op)
  | addInHEdge (inHEdge : WeakEdge)
  | removeInHEdge (inHEdge : WeakEdge)
deriving DecidableEq

/-- Effect of one call; a call of `removeInHEdge` that fails leaves the edge as it was. -/
def HyperOp.apply (heap : Nat → GenEdge) (p : Process) : HyperOp → Process
  | .op o => Op.apply p o
  | .addInHEdge inHEdge => gtpo.addInHEdge heap p inHEdge
  | .removeInHEdge inHEdge =>
    match gtpo.removeInHEdge heap p inHEdge with
    | .ok p2 => p2
    | .error _ => p

/-- Exactly one of `getDst()` and `getHDst()` is a non-empty reference. -/
def exactlyOneDestination (p : Process) : Bool :=
  xor (getDst p).isSome (getHDst p).isSome

end gtpo

namespace qan

/-! ## Qt value types used by `BottomRightResizer`

`qreal` is an IEEE double.  The resizer only adds, subtracts and compares such numbers, so the
embedding is parametric in the number type `R` and in the operations on it: every property
proved below holds for any interpretation of these operations, floating point included. -/

/-- Operations on `qreal` used by `qanBottomRightResizer.cpp`. -/
structure QReal (R : Type) where
  /-- The literal `0.`. -/
  zero : R
  /-- The literal `1.0`. -/
  one : R
  /-- In the source: `a + b`. -/
  add : R → R → R
  /-- In the source: `a - b`. -/
  sub : R → R → R
  /-- In the source: `a >= b`. -/
  ge : R → R → Bool
  /-- In the source: `a <= b`. -/
  le : R → R → Bool
  /-- Qt: `qIsNull( a )`. -/
  qIsNull : R → Bool
  /-- Qt: `qIsNull( 0. )` holds. -/
  qIsNull_zero : qIsNull zero = true

/-- Qt value type `QPointF`. -/
structure QPointF (R : Type) where
  xp : R
  yp : R

/-- Qt value type `QSizeF`. -/
structure QSizeF (R : Type) where
  wd : R
  ht : R

/-- Qt: `QPointF::isNull()`: `qIsNull( xp ) && qIsNull( yp )`. -/
def QPointF.isNull {R : Type} (q : QReal R) (p : QPointF R) : Bool :=
  q.qIsNull p.xp && q.qIsNull p.yp

/-- Qt: `QSizeF::isEmpty()`: `wd <= 0. || ht <= 0.`. -/
def QSizeF.isEmpty {R : Type} (q : QReal R) (s : QSizeF R) : Bool :=
  q.le s.wd q.zero || q.le s.ht q.zero

/-- Qt: `operator-( const QPointF&, const QPointF& )`. -/
def QPointF.sub {R : Type} (q : QReal R) (a b : QPointF R) : QPointF R :=
  { xp := q.sub a.xp b.xp, yp := q.sub a.yp b.yp }

/-- Cursor shapes set by the resizer. -/
inductive CursorShape where
  | ArrowCursor
  | SizeFDiagCursor
deriving DecidableEq

/-- Properties of a `QQuickItem` the resizer reads or writes.  `mapFromScene` is the mapping
of scene coordinates to the coordinates of the item, `interactive` the property of that name
of a flickable. -/
structure QQuickItem (R : Type) where
  width : R
  height : R
  opacity : R
  visible : Bool
  cursor : CursorShape
  interactive : Bool
  mapFromScene : QPointF R → QPointF R

/-- Event types told apart by `eventFilter`; `Other` is any other type. -/
inductive QEventType where
  | HoverEnter
  | HoverLeave
  | MouseMove
  | MouseButtonPress
  | MouseButtonRelease
  | Other
deriving DecidableEq

/-- The event handed to `eventFilter`, read through `static_cast<QMouseEvent*>`. -/
structure QMouseEvent (R : Type) where
  type : QEventType
  windowPos : QPointF R
  buttons : Nat
  accepted : Bool

/-- Flag `Qt::LeftButton`. -/
def LeftButton : Nat := 1

/-- Signals emitted by the resizer.  The size is `none` for a default constructed
`QSizeF{}`. -/
inductive Signal (R : Type) where
  | resizeStart (size : Option (QSizeF R))
  | resizeEnd (size : Option (QSizeF R))
  | autoHideHandlerChanged

/-- State of a `BottomRightResizer` together with the items it points to: `heap` gives the
item at each address, the pointers are addresses into it, and `emitted` records the signals
emitted so far.  Slots connected to these signals or to the change signals of the items are
not part of the state: `onTargetWidthChanged` and `onTargetHeightChanged`, the ones of this
class, only move the handler. -/
structure BottomRightResizer (R : Type) where
  heap : Nat → QQuickItem R
  /-- In the source: `parentItem()`. -/
  parentItem : Option Nat
  /-- In the source: `QPointer<QQuickItem> _handler`. -/
  _handler : Option Nat
  /-- In the source: `QPointer<QQuickItem> _target`. -/
  _target : Option Nat
  /-- Pointer returned by `getFlickable()`. -/
  _flickable : Option Nat
  _autoHideHandler : Bool
  _minimumTargetSize : QSizeF R
  _dragInitialPos : QPointF R
  _targetInitialSize : QSizeF R
  emitted : List (Signal R)

variable {R : Type}

/-- Apply `f` to the item at address `a`. -/
def BottomRightResizer.modify (r : BottomRightResizer R) (a : Nat)
    (f : QQuickItem R → QQuickItem R) : BottomRightResizer R :=
  { r with heap := Function.update r.heap a (f (r.heap a)) }

/-- In the source: `emit`. -/
def BottomRightResizer.emit (r : BottomRightResizer R) (s : Signal R) : BottomRightResizer R :=
  { r with emitted := r.emitted ++ [s] }

/-- Getter `getAutoHideHandler()` of the header `qanBottomRightResizer.h`, which is not part of
the sources at hand: taken as the read of `_autoHideHandler`. -/
def getAutoHideHandler (r : BottomRightResizer R) : Bool := r._autoHideHandler

/-- Getter `getFlickable()` of the header `qanBottomRightResizer.h`, which is not part of the
sources at hand: taken as the read of the flickable pointer. -/
def getFlickable (r : BottomRightResizer R) : Option Nat := r._flickable

/-- Size of the target as passed to `resizeStart` and `resizeEnd`:
`_target != nullptr ? QSizeF{ _target->width(), _target->height() } : QSizeF{}`. -/
def targetSize (r : BottomRightResizer R) : Option (QSizeF R) :=
  match r._target with
  | some t => some { wd := (r.heap t).width, ht := (r.heap t).height }
  | none => none

/-- In the source: `getFlickable()->setProperty( "interactive", QVariant{b} )` when a flickable is set. -/
def setFlickableInteractive (r : BottomRightResizer R) (b : Bool) : BottomRightResizer R :=
  match getFlickable r with
  | some f => r.modify f (fun i => { i with interactive := b })
  | none => r

/-- In the source: `BottomRightResizer::setAutoHideHandler( bool autoHideHandler )`. -/
def setAutoHideHandler (r : BottomRightResizer R) (autoHideHandler : Bool) :
    BottomRightResizer R :=
  if autoHideHandler = r._autoHideHandler then r    -- Binding loop protection
  else
    let r1 :=
      match r._handler with
      | some h =>
        if autoHideHandler && (r.heap h).visible then
          r.modify h (fun i => { i with visible := false })
        else r
      | none => r
    { r1 with _autoHideHandler := autoHideHandler }.emit Signal.autoHideHandlerChanged

/-- Base class `QObject::eventFilter( item, event )`, the default implementation of Qt: the event is not
filtered. -/
def QObject.eventFilter : Bool := false

/-- Outcome of `eventFilter`: the returned value, the state afterwards and the event with its
accepted flag. -/
structure Filtered (R : Type) where
  result : Bool
  state : BottomRightResizer R
  event : QMouseEvent R

/-- In the source: `delta` of the `MouseMove` case: `curLocalPos - startLocalPos`, both mapped from the
scene by the parent item when there is one. -/
def dragDelta (q : QReal R) (r : BottomRightResizer R) (me : QMouseEvent R) : QPointF R :=
  let startLocalPos :=
    match r.parentItem with
    | some p => (r.heap p).mapFromScene r._dragInitialPos
    | none => r._dragInitialPos
  let curLocalPos :=
    match r.parentItem with
    | some p => (r.heap p).mapFromScene me.windowPos
    | none => me.windowPos
  QPointF.sub q curLocalPos startLocalPos

/-- In the source: `BottomRightResizer::eventFilter( QObject* item, QEvent* event )`. -/
def eventFilter (q : QReal R) (r : BottomRightResizer R) (item : Option Nat)
    (event : QMouseEvent R) : Filtered R :=
  if item ≠ r._handler then ⟨QObject.eventFilter, r, event⟩
  else
    match r._handler with
    | none => ⟨QObject.eventFilter, r, event⟩
    | some h =>
      match event.type with
      | .HoverEnter =>
        let r1 := r.modify h (fun i => { i with cursor := CursorShape.SizeFDiagCursor })
        let r2 := r1.modify h (fun i => { i with opacity := q.one })
        ⟨true, r2, { event with accepted := true }⟩
      | .HoverLeave =>
        let r1 := r.modify h (fun i => { i with cursor := CursorShape.ArrowCursor })
        let r2 := r1.modify h
          (fun i => { i with opacity := if getAutoHideHandler r1 then q.zero else q.one })
        ⟨true, r2, { event with accepted := true }⟩
      | .MouseMove =>
        if (event.buttons ||| LeftButton) ≠ 0 &&
            !QPointF.isNull q r._dragInitialPos &&
            !QSizeF.isEmpty q r._targetInitialSize then
          let delta := dragDelta q r event
          match r._target with
          | some t =>
            -- Do not resize below minimumSize
            let targetWidth := q.add r._targetInitialSize.wd delta.xp
            let r1 :=
              if q.ge targetWidth r._minimumTargetSize.wd then
                r.modify t (fun i => { i with width := targetWidth })
              else r
            let targetHeight := q.add r1._targetInitialSize.ht delta.yp
            let r2 :=
              if q.ge targetHeight r1._minimumTargetSize.ht then
                r1.modify t (fun i => { i with height := targetHeight })
              else r1
            ⟨true, r2, { event with accepted := true }⟩
          | none => ⟨QObject.eventFilter, r, event⟩
        else ⟨QObject.eventFilter, r, event⟩
      | .MouseButtonPress =>
        match r._target with
        | some t =>
          let r1 := { r with _dragInitialPos := event.windowPos }
          let r2 := { r1 with
            _targetInitialSize := { wd := (r1.heap t).width, ht := (r1.heap t).height } }
          let r3 := r2.emit (Signal.resizeStart (targetSize r2))
          let r4 := setFlickableInteractive r3 false
          ⟨true, r4, { event with accepted := true }⟩
        | none => ⟨QObject.eventFilter, r, event⟩
      | .MouseButtonRelease =>
        -- Invalid all cached coordinates when button is released
        let r1 := { r with _dragInitialPos := { xp := q.zero, yp := q.zero } }
        let r2 := { r1 with _targetInitialSize := { wd := q.zero, ht := q.zero } }
        let r3 := r2.emit (Signal.resizeEnd (targetSize r2))
        let r4 := setFlickableInteractive r3 true
        ⟨QObject.eventFilter, r4, event⟩
      | .Other => ⟨QObject.eventFilter, r, event⟩

/-- State after a sequence of calls of `eventFilter`, first call first. -/
def runEvents (q : QReal R) (r : BottomRightResizer R) :
    List (Option Nat × QMouseEvent R) → BottomRightResizer R
  | [] => r
  | (item, event) :: rest => runEvents q (eventFilter q r item event).state rest

/-- Integer arithmetic as an interpretation of the `qreal` operations, to run the resizer on
concrete numbers. -/
def intReal : QReal Int where
  zero := 0
  one := 1
  add := fun a b => a + b
  sub := fun a b => a - b
  ge := fun a b => decide (a ≥ b)
  le := fun a b => decide (a ≤ b)
  qIsNull := fun a => decide (a = 0)
  qIsNull_zero := by decide

/-- An item of width 100 and height 50 whose coordinates are those of the scene. -/
def sampleItem : QQuickItem Int :=
  { width := 100, height := 50, opacity := 1, visible := true,
    cursor := CursorShape.ArrowCursor, interactive := true, mapFromScene := fun p => p }

/-- A resizer with handler at address 1 and target at address 2, in the middle of a drag
started at (10, 10) with a target of 100 x 50; the minimum size is 80 x 45, auto hide is
on. -/
def sampleResizer : BottomRightResizer Int :=
  { heap := fun _ => sampleItem, parentItem := none, _handler := some 1, _target := some 2,
    _flickable := none, _autoHideHandler := true,
    _minimumTargetSize := { wd := 80, ht := 45 },
    _dragInitialPos := { xp := 10, yp := 10 },
    _targetInitialSize := { wd := 100, ht := 50 },
    emitted := [] }

/-- A mouse event of the given type at the given window position, left button down. -/
def sampleEvent (type : QEventType) (x y : Int) : QMouseEvent Int :=
  { type := type, windowPos := { xp := x, yp := y }, buttons := 1, accepted := false }

end qan

/-! # Properties of `GenEdge` -/

namespace gtpo

/-- A call other than `setSerializable( false )` keeps a set serializable flag. -/
theorem Op.apply_self_serializable (p : Process) (op : Op)
    (h : op ≠ Op.setSerializable false) (hp : p.self._serializable = true) :
    (Op.apply p op).self._serializable = true := by
  cases op with
  | setSerializable b =>
    cases b with
    | false => exact absurd rfl h
    | true => rfl
  | setGraph g => exact hp
  | setSrc s => exact hp
  | setDst d => exact hp
  | setHDst d => exact hp

/-- The serializable flag stays set along calls none of which is `setSerializable( false )`. -/
theorem applyOps_serializable (ops : List Op) (p : Process)
    (h : ∀ op ∈ ops, op ≠ Op.setSerializable false) (hp : p.self._serializable = true) :
    (applyOps p ops).self._serializable = true := by
  induction ops generalizing p with
  | nil => exact hp
  | cons op rest ih =>
    have hop : op ≠ Op.setSerializable false := h op (List.mem_cons_self op rest)
    have hrest : ∀ o ∈ rest, o ≠ Op.setSerializable false :=
      fun o ho => h o (List.mem_cons_of_mem op ho)
    exact ih (Op.apply p op) hrest (Op.apply_self_serializable p op hop hp)

/-- A call that keeps the destination kind keeps which of `_dst` and `_hDst` is non-empty. -/
theorem Op.apply_keepsKind (hyper : Bool) (p : Process) (op : Op)
    (h : op.keepsKind hyper = true)
    (hd : p.self._dst.isSome = !hyper) (hh : p.self._hDst.isSome = hyper) :
    (Op.apply p op).self._dst.isSome = (!hyper) ∧ (Op.apply p op).self._hDst.isSome = hyper := by
  cases op with
  | setGraph g => simp [Op.keepsKind] at h
  | setSerializable b => simp [Op.keepsKind] at h
  | setSrc s => exact ⟨hd, hh⟩
  | setDst d =>
    simp only [Op.keepsKind, beq_iff_eq] at h
    exact ⟨h, hh⟩
  | setHDst d =>
    simp only [Op.keepsKind, beq_iff_eq] at h
    exact ⟨hd, h⟩

/-- Calls that keep the destination kind keep which of `_dst` and `_hDst` is non-empty. -/
theorem applyOps_keepsKind (hyper : Bool) (ops : List Op) (p : Process)
    (h : ∀ op ∈ ops, op.keepsKind hyper = true)
    (hd : p.self._dst.isSome = !hyper) (hh : p.self._hDst.isSome = hyper) :
    (applyOps p ops).self._dst.isSome = (!hyper) ∧ (applyOps p ops).self._hDst.isSome = hyper := by
  induction ops generalizing p with
  | nil => exact ⟨hd, hh⟩
  | cons op rest ih =>
    have hop := Op.apply_keepsKind hyper p op (h op (List.mem_cons_self op rest)) hd hh
    exact ih (Op.apply p op) (fun o ho => h o (List.mem_cons_of_mem op ho)) hop.1 hop.2

/-- C1: destroying an edge writes the "deleted before being removed from the graph" warning
on `std::cerr` if and only if its graph back-reference is non-null at that moment (and writes
nothing otherwise); in both cases the destructor runs to its end and leaves the graph
back-reference null. -/
theorem destructor_warns_iff_attached (p : Process) :
    ((destructor p).cerr = p.cerr ++ [deletedBeforeRemovedWarning] ↔ getGraph p ≠ none) ∧
    ((destructor p).cerr = p.cerr ↔ getGraph p = none) ∧
    getGraph (destructor p) = none := by
  unfold destructor getGraph
  by_cases hg : p.self._graph = none
  · simp [hg]
  · simp [hg]

/-- C2 fails as stated: a default constructed edge has no destination at all, and an edge
built with a destination node on which `setHDst` is called has both destinations set. -/
theorem exactlyOneDestination_fails :
    exactlyOneDestination (applyOps ⟨construct Ctor.default, [], []⟩ []) = false ∧
    (∀ op ∈ [Op.setHDst (some 3)], op.isEndpointSetter = true) ∧
    exactlyOneDestination
      (applyOps ⟨construct (Ctor.fromNodes (some 1) (some 2)), [], []⟩ [Op.setHDst (some 3)])
      = false := by
  decide

/-- C2, amended: an edge built by the (source, destination node) constructor with a non-empty
destination node (`hyper = false`), or by the (source, destination edge) constructor with a
non-empty destination edge (`hyper = true`), and then modified by any sequence of `setSrc`
calls, of `setDst` calls whose argument is non-empty exactly when the edge was built with a
destination node, and of `setHDst` calls whose argument is non-empty exactly when the edge was
built with a destination edge, has exactly one of `getDst()` and `getHDst()` non-empty: the
one of the kind given at construction.  The default constructor leaves both empty;
`setDst( r )` makes `getDst()` return `r` and leaves `getHDst()` unchanged, and `setHDst( r )`
makes `getHDst()` return `r` and leaves `getDst()` unchanged. -/
theorem exactlyOneDestination_of_keepsKind (hyper : Bool) (src : WeakNode) (d : Option Nat)
    (cerr : List String) (notified : List BehaviourEvent) (ops : List Op)
    (hd : d.isSome = true) (hops : ∀ op ∈ ops, op.keepsKind hyper = true) :
    let c := if hyper then Ctor.fromHyper src d else Ctor.fromNodes src d
    let p := applyOps ⟨construct c, cerr, notified⟩ ops
    (exactlyOneDestination p = true ∧
      (getDst p).isSome = (!hyper) ∧ (getHDst p).isSome = hyper) ∧
    (getDst ⟨construct Ctor.default, cerr, notified⟩ = none ∧
      getHDst ⟨construct Ctor.default, cerr, notified⟩ = none) ∧
    (∀ (e : Process) (r : WeakNode),
      getDst (setDst e r) = r ∧ getHDst (setDst e r) = getHDst e) ∧
    (∀ (e : Process) (r : WeakEdge),
      getHDst (setHDst e r) = r ∧ getDst (setHDst e r) = getDst e) := by
  intro c p
  have key : (getDst p).isSome = (!hyper) ∧ (getHDst p).isSome = hyper := by
    apply applyOps_keepsKind hyper ops _ hops
    · cases hyper <;> simp [c, construct, GenEdge.fromNodes, GenEdge.fromHyper, hd]
    · cases hyper <;> simp [c, construct, GenEdge.fromNodes, GenEdge.fromHyper, hd]
  refine ⟨⟨?_, key⟩, ⟨rfl, rfl⟩, fun _ _ => ⟨rfl, rfl⟩, fun _ _ => ⟨rfl, rfl⟩⟩
  unfold exactlyOneDestination
  rw [key.1, key.2]
  cases hyper <;> rfl

/-- Witness of `exactlyOneDestination_of_keepsKind`: a hyperedge whose source and destination
edge are re-assigned, and whose empty destination node is assigned again. -/
theorem exactlyOneDestination_of_keepsKind_witness :
    let p := applyOps ⟨construct (Ctor.fromHyper (some 1) (some 2)), [], []⟩
      [Op.setSrc none, Op.setHDst (some 5), Op.setDst none]
    (exactlyOneDestination p = true ∧ (getDst p).isSome = false ∧ (getHDst p).isSome = true) ∧
    (getDst ⟨construct Ctor.default, [], []⟩ = none ∧
      getHDst ⟨construct Ctor.default, [], []⟩ = none) ∧
    (∀ (e : Process) (r : WeakNode),
      getDst (setDst e r) = r ∧ getHDst (setDst e r) = getHDst e) ∧
    (∀ (e : Process) (r : WeakEdge),
      getHDst (setHDst e r) = r ∧ getDst (setHDst e r) = getDst e) :=
  exactlyOneDestination_of_keepsKind true (some 1) (some 2) [] []
    [Op.setSrc none, Op.setHDst (some 5), Op.setDst none] (by decide) (by decide)

/-- C4: `setSerializable( b )` makes `isSerializable()` and `getSerializable()` return `b`
and changes nothing else: source, destination node, destination edge, in-hyperedge set,
in-hyper-node set and graph back-reference are unchanged, no behaviour notification is
dispatched and nothing is written on `std::cerr`. -/
theorem setSerializable_frame (p : Process) (b : Bool) :
    isSerializable (setSerializable p b) = b ∧
    getSerializable (setSerializable p b) = b ∧
    getSrc (setSerializable p b) = getSrc p ∧
    getDst (setSerializable p b) = getDst p ∧
    getHDst (setSerializable p b) = getHDst p ∧
    getInHEdges (setSerializable p b) = getInHEdges p ∧
    getInHNodes (setSerializable p b) = getInHNodes p ∧
    getGraph (setSerializable p b) = getGraph p ∧
    (setSerializable p b).notified = p.notified ∧
    (setSerializable p b).cerr = p.cerr :=
  ⟨rfl, rfl, rfl, rfl, rfl, rfl, rfl, rfl, rfl, rfl⟩

/-- C5: for every edge and every node reference `r`, whatever `r` refers to, `setSrc( r )`
is defined, makes `getSrc()` return `r` and leaves `getDst()`, `getHDst()`, the serializable
flag, the graph back-reference, the hyperedge containers and the logs unchanged;
symmetrically `setDst( r )` makes `getDst()` return `r` and leaves `getSrc()` and the rest
unchanged. -/
theorem setSrc_setDst_unchecked (p : Process) (r : WeakNode) :
    (getSrc (setSrc p r) = r ∧
      getDst (setSrc p r) = getDst p ∧
      getHDst (setSrc p r) = getHDst p ∧
      getSerializable (setSrc p r) = getSerializable p ∧
      getGraph (setSrc p r) = getGraph p ∧
      getInHEdges (setSrc p r) = getInHEdges p ∧
      getInHNodes (setSrc p r) = getInHNodes p ∧
      (setSrc p r).notified = p.notified ∧ (setSrc p r).cerr = p.cerr) ∧
    (getDst (setDst p r) = r ∧
      getSrc (setDst p r) = getSrc p ∧
      getHDst (setDst p r) = getHDst p ∧
      getSerializable (setDst p r) = getSerializable p ∧
      getGraph (setDst p r) = getGraph p ∧
      getInHEdges (setDst p r) = getInHEdges p ∧
      getInHNodes (setDst p r) = getInHNodes p ∧
      (setDst p r).notified = p.notified ∧ (setDst p r).cerr = p.cerr) :=
  ⟨⟨rfl, rfl, rfl, rfl, rfl, rfl, rfl, rfl, rfl⟩, ⟨rfl, rfl, rfl, rfl, rfl, rfl, rfl, rfl, rfl⟩⟩

/-- C6: an edge created by any of the three constructors is serializable, and stays so along
any sequence of `setGraph`, `setSerializable`, `setSrc`, `setDst` and `setHDst` calls none of
which is `setSerializable( false )`. -/
theorem isSerializable_by_default (c : Ctor) (cerr : List String)
    (notified : List BehaviourEvent) (ops : List Op)
    (hops : ∀ op ∈ ops, op ≠ Op.setSerializable false) :
    isSerializable ⟨construct c, cerr, notified⟩ = true ∧
    isSerializable (applyOps ⟨construct c, cerr, notified⟩ ops) = true := by
  have h0 : (construct c)._serializable = true := by
    cases c <;> rfl
  exact ⟨h0, applyOps_serializable ops _ hops h0⟩

/-- Witness of `isSerializable_by_default`: a hyperedge whose members are all re-assigned. -/
theorem isSerializable_by_default_witness :
    isSerializable ⟨construct (Ctor.fromHyper (some 1) (some 2)), [], []⟩ = true ∧
    isSerializable (applyOps ⟨construct (Ctor.fromHyper (some 1) (some 2)), [], []⟩
      [Op.setSrc (some 4), Op.setSerializable true, Op.setDst none, Op.setGraph (some 9)])
      = true :=
  isSerializable_by_default (Ctor.fromHyper (some 1) (some 2)) [] []
    [Op.setSrc (some 4), Op.setSerializable true, Op.setDst none, Op.setGraph (some 9)]
    (by decide)

end gtpo

/-! # Properties of `BottomRightResizer` -/

namespace qan

variable {R : Type}

/-- The test `me->buttons() | Qt::LeftButton` never fails. -/
theorem buttons_or_LeftButton_ne_zero (buttons : Nat) : (buttons ||| LeftButton) ≠ 0 := by
  intro h
  have h0 : (buttons ||| LeftButton).testBit 0 = true := by
    rw [Nat.testBit_or]
    simp [LeftButton]
  rw [h] at h0
  simp at h0

/-- A point with both coordinates `0.` is null. -/
theorem isNull_zero (q : QReal R) : QPointF.isNull q { xp := q.zero, yp := q.zero } = true := by
  simp [QPointF.isNull, q.qIsNull_zero]

/-- With a null cached drag position, `eventFilter` does nothing on a `MouseMove`: the state
and the event are unchanged and the event is not filtered. -/
theorem eventFilter_mouseMove_idle (q : QReal R) (r : BottomRightResizer R) (item : Option Nat)
    (me : QMouseEvent R) (hty : me.type = QEventType.MouseMove)
    (hpos : QPointF.isNull q r._dragInitialPos = true) :
    eventFilter q r item me = ⟨false, r, me⟩ := by
  unfold eventFilter
  by_cases hi : item = r._handler
  · rw [if_neg (not_not.mpr hi)]
    cases hh : r._handler with
    | none => rfl
    | some h => simp [hty, hpos, QObject.eventFilter]
  · rw [if_pos hi]; rfl

/-- An event other than `MouseButtonPress` keeps a null cached drag position null. -/
theorem eventFilter_keeps_idle (q : QReal R) (r : BottomRightResizer R) (item : Option Nat)
    (ev : QMouseEvent R) (hty : ev.type ≠ QEventType.MouseButtonPress)
    (hpos : QPointF.isNull q r._dragInitialPos = true) :
    QPointF.isNull q (eventFilter q r item ev).state._dragInitialPos = true := by
  cases hev : ev.type with
  | MouseButtonPress => exact absurd hev hty
  | MouseMove => rw [eventFilter_mouseMove_idle q r item ev hev hpos]; exact hpos
  | HoverEnter =>
    unfold eventFilter
    by_cases hi : item = r._handler
    · rw [if_neg (not_not.mpr hi)]
      cases hh : r._handler with
      | none => exact hpos
      | some h => simp only [hev]; exact hpos
    · rw [if_pos hi]; exact hpos
  | HoverLeave =>
    unfold eventFilter
    by_cases hi : item = r._handler
    · rw [if_neg (not_not.mpr hi)]
      cases hh : r._handler with
      | none => exact hpos
      | some h => simp only [hev]; exact hpos
    · rw [if_pos hi]; exact hpos
  | Other =>
    unfold eventFilter
    by_cases hi : item = r._handler
    · rw [if_neg (not_not.mpr hi)]
      cases hh : r._handler with
      | none => exact hpos
      | some h => simp only [hev]; exact hpos
    · rw [if_pos hi]; exact hpos
  | MouseButtonRelease =>
    unfold eventFilter
    by_cases hi : item = r._handler
    · rw [if_neg (not_not.mpr hi)]
      cases hh : r._handler with
      | none => exact hpos
      | some h =>
        simp only [hev]
        unfold setFlickableInteractive getFlickable
        cases hf : (BottomRightResizer.emit _ _)._flickable <;> exact isNull_zero q
    · rw [if_pos hi]; exact hpos

/-- Events none of which is a `MouseButtonPress` keep a null cached drag position null. -/
theorem runEvents_keeps_idle (q : QReal R) (evs : List (Option Nat × QMouseEvent R))
    (r : BottomRightResizer R) (hevs : ∀ e ∈ evs, e.2.type ≠ QEventType.MouseButtonPress)
    (hpos : QPointF.isNull q r._dragInitialPos = true) :
    QPointF.isNull q (runEvents q r evs)._dragInitialPos = true := by
  induction evs generalizing r with
  | nil => exact hpos
  | cons e rest ih =>
    obtain ⟨item, ev⟩ := e
    have hev : ev.type ≠ QEventType.MouseButtonPress := hevs (item, ev) (List.mem_cons_self _ _)
    exact ih _ (fun e he => hevs e (List.mem_cons_of_mem _ he))
      (eventFilter_keeps_idle q r item ev hev hpos)

/-- C7: on a `MouseMove` event on the handler, with a non-null cached drag position, a
non-empty cached initial size and a non-null target, `eventFilter` sets the width of the target
to initial width + delta x exactly when that value is `>=` the minimum target width and
otherwise leaves the width as it was, and independently sets the height to
initial height + delta y exactly when that value is `>=` the minimum target height and
otherwise leaves it as it was; the event is accepted.  So the size a drag gives the target is
never below the minimum size. -/
theorem eventFilter_mouseMove_resizes (q : QReal R) (r : BottomRightResizer R) (h t : Nat)
    (me : QMouseEvent R) (hh : r._handler = some h) (ht : r._target = some t)
    (hty : me.type = QEventType.MouseMove)
    (hpos : QPointF.isNull q r._dragInitialPos = false)
    (hsize : QSizeF.isEmpty q r._targetInitialSize = false) :
    let out := eventFilter q r (some h) me
    let targetWidth := q.add r._targetInitialSize.wd (dragDelta q r me).xp
    let targetHeight := q.add r._targetInitialSize.ht (dragDelta q r me).yp
    (out.state.heap t).width =
        (if q.ge targetWidth r._minimumTargetSize.wd = true then targetWidth
         else (r.heap t).width) ∧
      (out.state.heap t).height =
        (if q.ge targetHeight r._minimumTargetSize.ht = true then targetHeight
         else (r.heap t).height) ∧
      out.result = true ∧ out.event.accepted = true ∧
      (q.ge (out.state.heap t).width r._minimumTargetSize.wd = true ∨
        (out.state.heap t).width = (r.heap t).width) ∧
      (q.ge (out.state.heap t).height r._minimumTargetSize.ht = true ∨
        (out.state.heap t).height = (r.heap t).height) := by
  intro out targetWidth targetHeight
  have hb : (me.buttons ||| LeftButton) ≠ 0 := buttons_or_LeftButton_ne_zero me.buttons
  have hw' : ∀ b, q.ge targetWidth r._minimumTargetSize.wd = b →
      q.ge (q.add r._targetInitialSize.wd (dragDelta q r me).xp) r._minimumTargetSize.wd = b :=
    fun _ hb => hb
  have hg' : ∀ b, q.ge targetHeight r._minimumTargetSize.ht = b →
      q.ge (q.add r._targetInitialSize.ht (dragDelta q r me).yp) r._minimumTargetSize.ht = b :=
    fun _ hb => hb
  cases hw : q.ge targetWidth r._minimumTargetSize.wd <;>
    cases hg : q.ge targetHeight r._minimumTargetSize.ht <;>
    simp [out, targetWidth, targetHeight, eventFilter, hh, ht, hty, hpos, hsize, hb, hw' _ hw,
      hg' _ hg, BottomRightResizer.modify]

/-- Witness of `eventFilter_mouseMove_resizes`: a drag from (10, 10) to (30, 0) of a target
of 100 x 50 with minimum size 80 x 45 sets the width to 120 and leaves the height at 50, since
40 is below the minimum height. -/
theorem eventFilter_mouseMove_resizes_witness :
    let out := eventFilter intReal sampleResizer (some 1) (sampleEvent QEventType.MouseMove 30 0)
    ((out.state.heap 2).width = 120 ∧ (out.state.heap 2).height = 50) ∧
    ((out.state.heap 2).width =
        (if intReal.ge (intReal.add sampleResizer._targetInitialSize.wd
              (dragDelta intReal sampleResizer (sampleEvent QEventType.MouseMove 30 0)).xp)
            sampleResizer._minimumTargetSize.wd = true
         then intReal.add sampleResizer._targetInitialSize.wd
              (dragDelta intReal sampleResizer (sampleEvent QEventType.MouseMove 30 0)).xp
         else (sampleResizer.heap 2).width) ∧
      (out.state.heap 2).height =
        (if intReal.ge (intReal.add sampleResizer._targetInitialSize.ht
              (dragDelta intReal sampleResizer (sampleEvent QEventType.MouseMove 30 0)).yp)
            sampleResizer._minimumTargetSize.ht = true
         then intReal.add sampleResizer._targetInitialSize.ht
              (dragDelta intReal sampleResizer (sampleEvent QEventType.MouseMove 30 0)).yp
         else (sampleResizer.heap 2).height) ∧
      out.result = true ∧ out.event.accepted = true ∧
      (intReal.ge (out.state.heap 2).width sampleResizer._minimumTargetSize.wd = true ∨
        (out.state.heap 2).width = (sampleResizer.heap 2).width) ∧
      (intReal.ge (out.state.heap 2).height sampleResizer._minimumTargetSize.ht = true ∨
        (out.state.heap 2).height = (sampleResizer.heap 2).height)) :=
  ⟨by decide,
    eventFilter_mouseMove_resizes intReal sampleResizer 1 2 (sampleEvent QEventType.MouseMove 30 0)
      rfl rfl rfl (by decide) (by decide)⟩

/-- C8, what the code does: when auto-hide is on and the handler is non-null and visible,
`setAutoHideHandler( false )` changes the flag and leaves the handler visible.  The handler
is hidden by the opposite call, `setAutoHideHandler( true )` while auto-hide is off. -/
theorem setAutoHideHandler_false_leaves_handler_visible (r : BottomRightResizer R) (h : Nat)
    (hauto : r._autoHideHandler = true) (hh : r._handler = some h)
    (hvisible : (r.heap h).visible = true) :
    ((setAutoHideHandler r false).heap h).visible = true ∧
      getAutoHideHandler (setAutoHideHandler r false) = false := by
  simp [setAutoHideHandler, getAutoHideHandler, hauto, hh, hvisible, BottomRightResizer.emit]

/-- Witness of `setAutoHideHandler_false_leaves_handler_visible`: the handler at address 1 of
the sample resizer, visible and with auto-hide on. -/
theorem setAutoHideHandler_false_leaves_handler_visible_witness :
    (sampleResizer._autoHideHandler = true ∧ (sampleResizer.heap 1).visible = true) ∧
    (((setAutoHideHandler sampleResizer false).heap 1).visible = true ∧
      getAutoHideHandler (setAutoHideHandler sampleResizer false) = false) :=
  ⟨by decide, setAutoHideHandler_false_leaves_handler_visible sampleResizer 1 rfl rfl rfl⟩

/-- C9: a `MouseButtonRelease` event on the handler sets the cached drag position and the
cached initial target size to zero.  After any following events none of which is a
`MouseButtonPress`, a `MouseMove` event, on any item, is not filtered, keeps its accepted flag
and leaves the whole state unchanged, the width and height of every item, the target
included. -/
theorem eventFilter_release_invalidates_drag (q : QReal R) (r : BottomRightResizer R) (h : Nat)
    (ev : QMouseEvent R) (hh : r._handler = some h)
    (hty : ev.type = QEventType.MouseButtonRelease) :
    let r1 := (eventFilter q r (some h) ev).state
    r1._dragInitialPos = { xp := q.zero, yp := q.zero } ∧
    r1._targetInitialSize = { wd := q.zero, ht := q.zero } ∧
    ∀ (evs : List (Option Nat × QMouseEvent R)),
      (∀ e ∈ evs, e.2.type ≠ QEventType.MouseButtonPress) →
      ∀ (item : Option Nat) (mv : QMouseEvent R), mv.type = QEventType.MouseMove →
        let r2 := runEvents q r1 evs
        let out := eventFilter q r2 item mv
        out.result = false ∧ out.event = mv ∧ out.state = r2 ∧
          ∀ a, (out.state.heap a).width = (r2.heap a).width ∧
            (out.state.heap a).height = (r2.heap a).height := by
  intro r1
  have hpos : r1._dragInitialPos = { xp := q.zero, yp := q.zero } := by
    simp only [r1, eventFilter, hh, hty, ne_eq, not_true_eq_false, if_false,
      setFlickableInteractive, getFlickable]
    cases (BottomRightResizer.emit _ _)._flickable <;> rfl
  have hsize : r1._targetInitialSize = { wd := q.zero, ht := q.zero } := by
    simp only [r1, eventFilter, hh, hty, ne_eq, not_true_eq_false, if_false,
      setFlickableInteractive, getFlickable]
    cases (BottomRightResizer.emit _ _)._flickable <;> rfl
  refine ⟨hpos, hsize, ?_⟩
  intro evs hevs item mv hmv r2 out
  have hnull : QPointF.isNull q r1._dragInitialPos = true := by
    rw [hpos]; exact isNull_zero q
  have hidle : QPointF.isNull q r2._dragInitialPos = true :=
    runEvents_keeps_idle q evs r1 hevs hnull
  have hout : out = ⟨false, r2, mv⟩ := eventFilter_mouseMove_idle q r2 item mv hmv hidle
  rw [hout]
  exact ⟨rfl, rfl, rfl, fun _ => ⟨rfl, rfl⟩⟩

/-- Witness of `eventFilter_release_invalidates_drag`: the button is released during the drag
of the sample resizer; after a hover event, a move to (30, 0) leaves the target at
100 x 50. -/
theorem eventFilter_release_invalidates_drag_witness :
    let r1 := (eventFilter intReal sampleResizer (some 1)
      (sampleEvent QEventType.MouseButtonRelease 20 20)).state
    let r2 := runEvents intReal r1 [(some 1, sampleEvent QEventType.HoverLeave 25 25)]
    let out := eventFilter intReal r2 (some 1) (sampleEvent QEventType.MouseMove 30 0)
    out.result = false ∧ (out.state.heap 2).width = 100 ∧ (out.state.heap 2).height = 50 :=
  have key := (eventFilter_release_invalidates_drag intReal sampleResizer 1
    (sampleEvent QEventType.MouseButtonRelease 20 20) rfl rfl).2.2
    [(some 1, sampleEvent QEventType.HoverLeave 25 25)] (by decide) (some 1)
    (sampleEvent QEventType.MouseMove 30 0) rfl
  ⟨key.1, (key.2.2.2 2).1.trans (by decide), (key.2.2.2 2).2.trans (by decide)⟩

end qan
